import Mathlib

/-
  Verification of the tafuta fetch client (src/fetch/main.go, package tafuta).
  The definitions below are a shallow embedding of the Go source: the Go enum
  types become Nat with the same power-of-two constants, the JavaScript values
  the code manipulates become explicit structures, and the dispatching method
  Client.Do becomes a pure function from a request plus an environment (the
  behaviour of the host fetch primitive and of possible runtime panics) to an
  outcome together with a trace of the observable effects (body reads, resource
  handle registration and release, request construction, primitive invocation).
-/

set_option autoImplicit false

namespace Tafuta

/- Policy enums (src/fetch/main.go lines 410 to 553).  Go declares them as
   `uint` with constants `1 << iota`; we embed them as Nat with the same
   values, and the String methods follow the Go switch statements, with the
   default branch returning the empty string. -/

abbrev RequestCache := Nat

def DefaultCache : RequestCache := 1

def NoStore : RequestCache := 2

def Reload : RequestCache := 4

def NoCache : RequestCache := 8

def ForceCache : RequestCache := 16

def OnlyIfCached : RequestCache := 32

def RequestCache.String (c : RequestCache) : String :=
  if c = DefaultCache then ("default")
  else if c = NoStore then ("no-store")
  else if c = Reload then ("reload")
  else if c = NoCache then ("no-cache")
  else if c = ForceCache then ("force-cache")
  else if c = OnlyIfCached then ("only-if-cached")
  else ("")

abbrev RequestCredentials := Nat

def OmitCredential : RequestCredentials := 1

def SameOrigin : RequestCredentials := 2

def Include : RequestCredentials := 4

def RequestCredentials.String (c : RequestCredentials) : String :=
  if c = OmitCredential then ("omit")
  else if c = SameOrigin then ("same-origin")
  else if c = Include then ("include")
  else ("")

abbrev RequestMode := Nat

def SameOriginMode : RequestMode := 1

def NoCORSMode : RequestMode := 2

def CORSMode : RequestMode := 4

def NavigateMode : RequestMode := 8

def RequestMode.String (m : RequestMode) : String :=
  if m = SameOriginMode then ("same-origin")
  else if m = NoCORSMode then ("no-cors")
  else if m = CORSMode then ("cors")
  else if m = NavigateMode then ("navigate")
  else ("")

abbrev RequestRedirect := Nat

def FollowRedirect : RequestRedirect := 1

def ErrorRedirect : RequestRedirect := 2

def ManualRedirect : RequestRedirect := 4

def RequestRedirect.String (r : RequestRedirect) : String :=
  if r = FollowRedirect then ("follow")
  else if r = ErrorRedirect then ("error")
  else if r = ManualRedirect then ("manual")
  else ("")

/- RequestDestination (lines 555 to 619) is carried by Request but never read
   by Client.Do, so only the type is needed here. -/

abbrev RequestDestination := Nat

/- Response types (lines 665 to 694).  respTypMap is a Go map from the
   constants to wire strings; Go map lookup of an absent key yields the zero
   value, hence the trailing default cases. -/

abbrev ResponseType := Nat

def BasicResponse : ResponseType := 1

def CorsResponse : ResponseType := 2

def ErrorResponse : ResponseType := 4

def OpaqueResponse : ResponseType := 8

def OpaqueRedirectResponse : ResponseType := 16

def respTypMap (r : ResponseType) : String :=
  if r = BasicResponse then ("basic")
  else if r = CorsResponse then ("cors")
  else if r = ErrorResponse then ("error")
  else if r = OpaqueResponse then ("opaque")
  else if r = OpaqueRedirectResponse then ("opaqueredirect")
  else ("")

def ResponseType.String (r : ResponseType) : String :=
  respTypMap r

/- reverseRespTypMap is built by the package init from respTypMap by swapping
   keys and values (lines 683 to 690); lookup of an absent string yields the
   zero value ResponseType(0). -/
def reverseRespTypMap (s : String) : ResponseType :=
  if s = ("basic") then BasicResponse
  else if s = ("cors") then CorsResponse
  else if s = ("error") then ErrorResponse
  else if s = ("opaque") then OpaqueResponse
  else if s = ("opaqueredirect") then OpaqueRedirectResponse
  else 0

/- Model of a JavaScript Headers object.  A Headers instance keeps its header
   entries in an internal list manipulated only through the append, set,
   delete and get methods; ordinary JavaScript object properties (what
   syscall/js Value.Get reads) live in a separate table that the Headers
   methods never touch.  Only string-valued properties are modelled, which is
   what the Go wrapper inspects (Value.Type() == js.TypeString). -/

structure JSHeaders where
  entries : List (String × String)
  props : List (String × String)
  deriving DecidableEq

def asciiLowerChar (c : Char) : Char :=
  if 'A' ≤ c ∧ c ≤ 'Z' then Char.ofNat (c.toNat + 32) else c

/- JavaScript Headers normalizes header names to lower case. -/
def lowerName (s : String) : String :=
  String.mk (s.data.map asciiLowerChar)

def JSHeaders.append (h : JSHeaders) (name value : String) : JSHeaders :=
  { h with entries := h.entries ++ [(lowerName name, value)] }

def JSHeaders.set (h : JSHeaders) (name value : String) : JSHeaders :=
  { h with entries :=
      h.entries.filter (fun e => !(e.1 == lowerName name)) ++ [(lowerName name, value)] }

def JSHeaders.delete (h : JSHeaders) (name : String) : JSHeaders :=
  { h with entries := h.entries.filter (fun e => !(e.1 == lowerName name)) }

/- The Headers.get method: the comma-joined values for a name, or null (none)
   when the name is absent.  This is the primitive's concatenation rule the
   spec refers to. -/
def JSHeaders.get (h : JSHeaders) (name : String) : Option String :=
  let vs := (h.entries.filter (fun e => e.1 == lowerName name)).map (fun e => e.2)
  if vs = [] then none else some (String.intercalate (", ") vs)

/- Plain JavaScript property access on the object (syscall/js Value.Get);
   header entries are not exposed as properties. -/
def JSHeaders.getProp (h : JSHeaders) (key : String) : Option String :=
  ((h.props.filter (fun e => e.1 == key)).head?).map (fun e => e.2)

/- Header is the Go wrapper of a javascript Headers value
   (src/fetch/main.go lines 312 to 353).  The Go methods mutate the wrapped
   JS object; the embedding passes the state explicitly. -/

structure Header where
  value : JSHeaders
  deriving DecidableEq

/- NewHeader builds a fresh JS Headers object: no entries, no properties. -/
def NewHeader : Header :=
  { value := { entries := [], props := [] } }

/- Add calls the append method of the JS object (line 325). -/
def Header.Add (h : Header) (key value : String) : Header :=
  { value := h.value.append key value }

/- Del calls the delete method of the JS object (line 330). -/
def Header.Del (h : Header) (key : String) : Header :=
  { value := h.value.delete key }

/- Set calls the set method of the JS object (line 346). -/
def Header.Set (h : Header) (key value : String) : Header :=
  { value := h.value.set key value }

/- Get (lines 336 to 342) reads `h.value.Get(key)`, a plain JS property
   access, and returns its string form only when the property holds a string;
   otherwise the empty string. -/
def Header.Get (h : Header) (key : String) : String :=
  match h.value.getProp key with
  | some s => s
  | none => ("")

/- Value returns the wrapped js value (line 351). -/
def Header.Value (h : Header) : JSHeaders :=
  h.value

/- Model of Go net/url.URL restricted to the fields the claims consult. -/

structure URL where
  scheme : String
  host : String
  path : String
  deriving DecidableEq

/- Locate the first occurrence of the literal "://" in a character list,
   returning the parts before and after it. -/
def splitScheme : List Char → Option (List Char × List Char)
  | [] => none
  | c :: rest =>
    if c = ':' then
      match rest with
      | '/' :: '/' :: tail => some ([], tail)
      | _ => none
    else
      match splitScheme rest with
      | some (a, b) => some (c :: a, b)
      | none => none

def urlHostEnd (c : Char) : Bool :=
  !(c == '/' || c == '?' || c == '#')

/- Model of the external standard library function net/url.Parse, restricted
   to the behaviours the embedded code relies on: parsing fails exactly when
   the string contains an ASCII control character (Go reports
   "net/url: invalid control character in URL"); otherwise a string of the
   shape scheme://host/path is split at "://" and at the first following
   delimiter, and a string without "://" parses with empty scheme and host. -/
def urlParse (s : String) : Except String URL :=
  if s.data.any (fun c => c.toNat < 32 || c.toNat == 127) then
    Except.error ("net/url: invalid control character in URL")
  else
    match splitScheme s.data with
    | some (sch, rest) =>
      Except.ok { scheme := String.mk sch
                , host := String.mk (rest.takeWhile urlHostEnd)
                , path := String.mk (rest.dropWhile urlHostEnd) }
    | none =>
      Except.ok { scheme := (""), host := (""), path := s }

/- The JS value a resolved fetch promise carries, as far as NewResponse reads
   it (v.Get of "headers", "ok", "status", "statusText", "type", "url"; the
   "redirected" property also exists on the JS side and is included so that
   what NewResponse does with it can be stated). -/

structure JSResponseValue where
  headers : JSHeaders
  ok : Bool
  status : Int
  statusText : String
  typ : String
  url : String
  redirected : Bool
  deriving DecidableEq

/- Response (src/fetch/main.go lines 696 to 707).  The Body and the wrapped
   js value are not consulted by any claim and are omitted.  The Go field
   named Type is called Typ here because Type is a Lean keyword. -/

structure Response where
  Headers : Header
  Ok : Bool
  Redirected : Bool
  Status : Int
  StatusText : String
  Typ : ResponseType
  URL : URL
  deriving DecidableEq

/- NewResponse (lines 710 to 725).  Go allocates res := &Response{} (all
   fields zero valued, in particular Redirected = false), assigns Headers, Ok,
   Status, StatusText and Type from the JS value, parses the url property and
   fails when the parse fails.  No assignment to Redirected appears in the
   source. -/
def NewResponse (v : JSResponseValue) : Except String Response :=
  match urlParse v.url with
  | Except.error e => Except.error e
  | Except.ok u =>
    Except.ok
      { Headers := { value := v.headers }
      , Ok := v.ok
      , Redirected := false
      , Status := v.status
      , StatusText := v.statusText
      , Typ := reverseRespTypMap v.typ
      , URL := u }

/- Request (lines 646 to 663).  The Body io.Reader is embedded as what a full
   ioutil.ReadAll of it produces: either the complete byte contents or a read
   error. -/

structure Request where
  URL : String
  Cache : RequestCache
  Credentials : RequestCredentials
  Destination : RequestDestination
  Header : Option Header
  Method : String
  Mode : RequestMode
  Redirect : RequestRedirect
  Referer : String
  Integrity : String
  Body : Option (Except String (List Nat))

/- Whether ioutil.ReadAll of the request body would fail. -/
def bodyReadFails (req : Request) : Bool :=
  match req.Body with
  | some (Except.error _) => true
  | _ => false

/- Values stored in the option map Client.Do passes to Request.New. -/

inductive OptValue where
  | str (s : String)
  | headers (h : JSHeaders)
  | typedArray (bytes : List Nat)
  deriving DecidableEq

/- First-match lookup in the option map; the keys inserted by Client.Do are
   pairwise distinct, so this agrees with Go map indexing. -/
def optsLookup (k : String) : List (String × OptValue) → Option OptValue
  | [] => none
  | (a, v) :: rest => if a = k then some v else optsLookup k rest

/- The headers entry (lines 767 to 769): present iff req.Header is non-nil,
   holding the native reference Header.Value returns. -/
def headerOpts (req : Request) : List (String × OptValue) :=
  match req.Header with
  | some h => [(("headers"), OptValue.headers (Header.Value h))]
  | none => []

/- The option map assembled by Client.Do before the body entry
   (src/fetch/main.go lines 762 to 787), one conditional insertion per field,
   in source order. -/
def buildOpts (req : Request) : List (String × OptValue) :=
  (if req.Method = ("") then [] else [(("method"), OptValue.str req.Method)]) ++
  headerOpts req ++
  (if RequestMode.String req.Mode = ("") then []
   else [(("mode"), OptValue.str (RequestMode.String req.Mode))]) ++
  (if RequestCredentials.String req.Credentials = ("") then []
   else [(("credentials"), OptValue.str (RequestCredentials.String req.Credentials))]) ++
  (if RequestCache.String req.Cache = ("") then []
   else [(("cache"), OptValue.str (RequestCache.String req.Cache))]) ++
  (if RequestRedirect.String req.Redirect = ("") then []
   else [(("redirect"), OptValue.str (RequestRedirect.String req.Redirect))]) ++
  (if req.Referer = ("") then [] else [(("referrer"), OptValue.str req.Referer)]) ++
  (if req.Integrity = ("") then [] else [(("integrity"), OptValue.str req.Integrity)])

/- The body entry (lines 789 to 797): when the body is present and reads
   successfully, the bytes are wrapped in a typed array and stored under the
   body key. -/
def bodyOpts (req : Request) : List (String × OptValue) :=
  match req.Body with
  | some (Except.ok bs) => [(("body"), OptValue.typedArray bs)]
  | _ => []

/- The complete option map Client.Do hands to Request.New. -/
def assembledOpts (req : Request) : List (String × OptValue) :=
  buildOpts req ++ bodyOpts req

/- Observable effects of one Client.Do call, in the order they happen.
   registerHandle records the creation of a JS resource that must be released
   (js.TypedArrayOf at line 794, js.NewCallback at line 802); releaseHandle
   records a Release() performed by resourceList.free (lines 820 to 824);
   bodyRead records the ioutil.ReadAll of the request body (line 790);
   newRequest records js.Global().Get("Request").New with the given number of
   arguments (line 801); invokePrimitive records c.value.Invoke (line 806). -/

inductive Event where
  | registerHandle (id : Nat)
  | releaseHandle (id : Nat)
  | bodyRead
  | newRequest (argCount : Nat)
  | invokePrimitive
  deriving DecidableEq

/- Handle identities: at most one typed array and one callback per call. -/

def taHandle : Nat := 0

def cbHandle : Nat := 1

/- What the promise returned by the fetch primitive eventually does. -/

inductive PromiseOutcome where
  | resolve (v : JSResponseValue)
  | reject (msg : String)

/- The JS-interop call sites inside Client.Do at which the host can raise a
   runtime panic (a thrown JS exception becomes a Go panic):
   Request.New at line 801, c.value.Invoke at line 806 and r.Call of then at
   line 808.  The pure Go statements in between cannot panic. -/

inductive PanicSite where
  | requestNew
  | invoke
  | thenCall
  deriving DecidableEq

/- The environment of one Client.Do call: how the primitive's promise
   completes, and whether (and where, with what message) a runtime panic is
   raised during the call. -/

structure Env where
  promise : PromiseOutcome
  panicAt : Option PanicSite
  panicMsg : String

/- The outcome of Client.Do: the (res, err) pair, or the fact that the call
   never returns.  ok r stands for (r, nil); error m for (nil, err) with
   err.Error() = m; blocked for a call that stays suspended on the completion
   channel forever. -/

inductive DoResult where
  | ok (res : Response)
  | error (msg : String)
  | blocked
  deriving DecidableEq

/- resourceList.free (lines 820 to 824): Release every handle in order. -/
def releaseEvents (rs : List Nat) : List Event :=
  rs.map Event.releaseHandle

/- The part of Client.Do after body handling (lines 798 to 810 plus the
   deferred function of lines 754 to 761).  rt is the trace produced so far
   and rs the resource list accumulated so far.  The deferred function runs on
   every Go return path: it frees the current resource list and converts a
   recovered panic value v into the error fmt.Errorf of v, which for the
   panics modelled here carries exactly the panic message.  The completion
   callback is attached only to the fulfillment path of the promise
   (r.Call of then with a single argument, line 808), so on a rejected
   promise the callback never fires, the receive from the done channel at
   line 809 blocks forever, and neither the deferred free nor the return ever
   happens. -/
def doCore (req : Request) (env : Env) (rt : List Event) (rs : List Nat) :
    DoResult × List Event :=
  let opts := assembledOpts req
  let argCount := if opts.length > 0 then 2 else 1
  if env.panicAt = some PanicSite.requestNew then
    (DoResult.error env.panicMsg, rt ++ releaseEvents rs)
  else
    let tr1 := rt ++ [Event.newRequest argCount, Event.registerHandle cbHandle]
    if env.panicAt = some PanicSite.invoke then
      (DoResult.error env.panicMsg, tr1 ++ releaseEvents rs)
    else
      let tr2 := tr1 ++ [Event.invokePrimitive]
      let rs2 := rs ++ [cbHandle]
      if env.panicAt = some PanicSite.thenCall then
        (DoResult.error env.panicMsg, tr2 ++ releaseEvents rs2)
      else
        match env.promise with
        | PromiseOutcome.reject _ => (DoResult.blocked, tr2)
        | PromiseOutcome.resolve v =>
          match NewResponse v with
          | Except.ok r => (DoResult.ok r, tr2 ++ releaseEvents rs2)
          | Except.error e => (DoResult.error e, tr2 ++ releaseEvents rs2)

/- Client.Do (src/fetch/main.go lines 752 to 811).  The option map through
   the integrity entry is pure and emits no events.  When a body is present,
   ioutil.ReadAll reads it to completion exactly once; a read error returns
   (nil, err) immediately, before any resource was registered and before the
   primitive is touched (lines 790 to 793).  A successful read registers the
   typed-array handle in the resource list and the call proceeds. -/
def Client.Do (req : Request) (env : Env) : DoResult × List Event :=
  match req.Body with
  | some (Except.error e) => (DoResult.error e, [Event.bodyRead])
  | some (Except.ok _) =>
    doCore req env [Event.bodyRead, Event.registerHandle taHandle] [taHandle]
  | none => doCore req env [] []

/- How many times the trace registers, and releases, a given handle. -/

def countRegister (tr : List Event) (h : Nat) : Nat :=
  tr.count (Event.registerHandle h)

def countRelease (tr : List Event) (h : Nat) : Nat :=
  tr.count (Event.releaseHandle h)

/- The argument count of the first Request.New recorded in a trace. -/
def newRequestArgCount : List Event → Option Nat
  | [] => none
  | Event.newRequest n :: _ => some n
  | _ :: tl => newRequestArgCount tl

/- The body was read exactly once, and that read precedes any invocation of
   the fetch primitive. -/
def readsBodyOnceBeforeInvoke (tr : List Event) : Prop :=
  tr.count Event.bodyRead = 1 ∧
  (tr.takeWhile (fun e => !(e == Event.invokePrimitive))).count Event.bodyRead = 1

/- Concrete test inputs used to instantiate the theorems below. -/

/- A request with every optional field unset. -/
def reqDefault : Request :=
  { URL := ("https://example.test/a"), Cache := 0, Credentials := 0
  , Destination := 0, Header := none, Method := ("")
  , Mode := 0, Redirect := 0, Referer := (""), Integrity := ("")
  , Body := none }

/- The same request with a two-byte body that reads successfully. -/
def reqWithBody : Request :=
  { reqDefault with Body := some (Except.ok [104, 105]) }

/- The same request with a body whose read fails. -/
def reqBodyErr : Request :=
  { reqDefault with Body := some (Except.error ("read failed")) }

/- The same request with cache busting requested. -/
def reqNoStore : Request :=
  { reqDefault with Cache := NoStore }

/- The resolved response value of the spec's success test double. -/
def vBasic : JSResponseValue :=
  { headers := { entries := [], props := [] }, ok := true, status := 200
  , statusText := ("OK"), typ := ("basic")
  , url := ("https://example.test/a"), redirected := false }

/- The same value with the redirected flag raised. -/
def vRedirected : JSResponseValue :=
  { vBasic with redirected := true }

/- A resolved value whose url property fails to parse (it contains a control
   character). -/
def vBadUrl : JSResponseValue :=
  { vBasic with url := ("https://e\nx") }

/- A primitive that rejects with the spec's message. -/
def envReject : Env :=
  { promise := PromiseOutcome.reject ("network down"), panicAt := none
  , panicMsg := ("") }

/- A primitive that resolves with the success test double. -/
def envResolve : Env :=
  { promise := PromiseOutcome.resolve vBasic, panicAt := none
  , panicMsg := ("") }

/- A call during which Request.New raises a runtime panic. -/
def envPanicNew : Env :=
  { envResolve with panicAt := some PanicSite.requestNew, panicMsg := ("boom") }

/- A primitive that resolves with the malformed-URL value. -/
def envBadUrl : Env :=
  { envResolve with promise := PromiseOutcome.resolve vBadUrl }

/- The Response Descriptor NewResponse builds from vBasic. -/
def respBasic : Response :=
  { Headers := { value := { entries := [], props := [] } }
  , Ok := true, Redirected := false, Status := 200, StatusText := ("OK")
  , Typ := BasicResponse
  , URL := { scheme := ("https"), host := ("example.test"), path := ("/a") } }

/- The header store of the repository's own example: one Set call. -/
def hdrCT : Header :=
  Header.Set NewHeader ("Content-Type") ("text/xml")

/- The events doCore appends after the body-handling trace rt.  Stated as its
   own function so that the trace of Client.Do factors as rt ++ doCoreTail;
   the two resolve outcomes of the promise produce the same events, so the
   tail does not inspect NewResponse. -/
def doCoreTail (req : Request) (env : Env) (rs : List Nat) : List Event :=
  let opts := assembledOpts req
  let argCount := if opts.length > 0 then 2 else 1
  if env.panicAt = some PanicSite.requestNew then releaseEvents rs
  else
    let t1 := [Event.newRequest argCount, Event.registerHandle cbHandle]
    if env.panicAt = some PanicSite.invoke then t1 ++ releaseEvents rs
    else
      let t2 := t1 ++ [Event.invokePrimitive]
      let rs2 := rs ++ [cbHandle]
      if env.panicAt = some PanicSite.thenCall then t2 ++ releaseEvents rs2
      else
        match env.promise with
        | PromiseOutcome.reject _ => t2
        | PromiseOutcome.resolve _ => t2 ++ releaseEvents rs2

/- Reduction helpers for Option.orElse. -/

theorem optSomeOrElse {α : Type} (a : α) (f : Unit → Option α) :
    (some a).orElse f = some a := rfl

theorem optNoneOrElse {α : Type} (f : Unit → Option α) :
    Option.orElse none f = f () := rfl

theorem optsLookup_append (k : String) (l1 l2 : List (String × OptValue)) :
    optsLookup k (l1 ++ l2) = (optsLookup k l1).orElse (fun _ => optsLookup k l2) := by
  induction l1 with
  | nil => rfl
  | cons hd tl ih =>
    by_cases h : hd.1 = k
    · simp [optsLookup, h, optSomeOrElse]
    · simp [optsLookup, h, ih]

theorem optsLookup_skip {k : String} {l1 l2 : List (String × OptValue)}
    (h : optsLookup k l1 = none) :
    optsLookup k (l1 ++ l2) = optsLookup k l2 := by
  rw [optsLookup_append, h]; rfl

/- A conditional single-entry part whose key differs from the one looked up
   contributes nothing. -/
theorem optsLookup_condPart_none (k a : String) {v : OptValue} {c : Prop}
    [Decidable c] (h : a ≠ k) :
    optsLookup k (if c then [] else [(a, v)]) = none := by
  split
  · rfl
  · simp [optsLookup, h]

theorem optsLookup_headerOpts_none {req : Request} (k : String)
    (h : ("headers" : String) ≠ k) :
    optsLookup k (headerOpts req) = none := by
  rcases hh : req.Header with _ | hd <;> simp [headerOpts, hh, optsLookup, h]

theorem optsLookup_bodyOpts_none {req : Request} (k : String)
    (h : ("body" : String) ≠ k) :
    optsLookup k (bodyOpts req) = none := by
  rcases hb : req.Body with _ | b
  · simp [bodyOpts, hb, optsLookup]
  · cases b <;> simp [bodyOpts, hb, optsLookup, h]

theorem assembled_mode_lookup (req : Request) :
    optsLookup ("mode") (assembledOpts req) =
      (if RequestMode.String req.Mode = ("") then none
       else some (OptValue.str (RequestMode.String req.Mode))) := by
  unfold assembledOpts buildOpts
  simp only [List.append_assoc]
  rw [optsLookup_skip (optsLookup_condPart_none ("mode") ("method") (by decide)),
      optsLookup_skip (optsLookup_headerOpts_none ("mode") (by decide)),
      optsLookup_append]
  by_cases h : RequestMode.String req.Mode = ("")
  · rw [if_pos h, if_pos h]
    show optsLookup ("mode") _ = none
    rw [optsLookup_skip (optsLookup_condPart_none ("mode") ("credentials") (by decide)),
        optsLookup_skip (optsLookup_condPart_none ("mode") ("cache") (by decide)),
        optsLookup_skip (optsLookup_condPart_none ("mode") ("redirect") (by decide)),
        optsLookup_skip (optsLookup_condPart_none ("mode") ("referrer") (by decide)),
        optsLookup_skip (optsLookup_condPart_none ("mode") ("integrity") (by decide))]
    exact optsLookup_bodyOpts_none ("mode") (by decide)
  · rw [if_neg h, if_neg h]
    simp [optsLookup]

theorem assembled_credentials_lookup (req : Request) :
    optsLookup ("credentials") (assembledOpts req) =
      (if RequestCredentials.String req.Credentials = ("") then none
       else some (OptValue.str (RequestCredentials.String req.Credentials))) := by
  unfold assembledOpts buildOpts
  simp only [List.append_assoc]
  rw [optsLookup_skip (optsLookup_condPart_none ("credentials") ("method") (by decide)),
      optsLookup_skip (optsLookup_headerOpts_none ("credentials") (by decide)),
      optsLookup_skip (optsLookup_condPart_none ("credentials") ("mode") (by decide)),
      optsLookup_append]
  by_cases h : RequestCredentials.String req.Credentials = ("")
  · rw [if_pos h, if_pos h]
    show optsLookup ("credentials") _ = none
    rw [optsLookup_skip (optsLookup_condPart_none ("credentials") ("cache") (by decide)),
        optsLookup_skip (optsLookup_condPart_none ("credentials") ("redirect") (by decide)),
        optsLookup_skip (optsLookup_condPart_none ("credentials") ("referrer") (by decide)),
        optsLookup_skip (optsLookup_condPart_none ("credentials") ("integrity") (by decide))]
    exact optsLookup_bodyOpts_none ("credentials") (by decide)
  · rw [if_neg h, if_neg h]
    simp [optsLookup]

theorem assembled_cache_lookup (req : Request) :
    optsLookup ("cache") (assembledOpts req) =
      (if RequestCache.String req.Cache = ("") then none
       else some (OptValue.str (RequestCache.String req.Cache))) := by
  unfold assembledOpts buildOpts
  simp only [List.append_assoc]
  rw [optsLookup_skip (optsLookup_condPart_none ("cache") ("method") (by decide)),
      optsLookup_skip (optsLookup_headerOpts_none ("cache") (by decide)),
      optsLookup_skip (optsLookup_condPart_none ("cache") ("mode") (by decide)),
      optsLookup_skip (optsLookup_condPart_none ("cache") ("credentials") (by decide)),
      optsLookup_append]
  by_cases h : RequestCache.String req.Cache = ("")
  · rw [if_pos h, if_pos h]
    show optsLookup ("cache") _ = none
    rw [optsLookup_skip (optsLookup_condPart_none ("cache") ("redirect") (by decide)),
        optsLookup_skip (optsLookup_condPart_none ("cache") ("referrer") (by decide)),
        optsLookup_skip (optsLookup_condPart_none ("cache") ("integrity") (by decide))]
    exact optsLookup_bodyOpts_none ("cache") (by decide)
  · rw [if_neg h, if_neg h]
    simp [optsLookup]

theorem assembled_redirect_lookup (req : Request) :
    optsLookup ("redirect") (assembledOpts req) =
      (if RequestRedirect.String req.Redirect = ("") then none
       else some (OptValue.str (RequestRedirect.String req.Redirect))) := by
  unfold assembledOpts buildOpts
  simp only [List.append_assoc]
  rw [optsLookup_skip (optsLookup_condPart_none ("redirect") ("method") (by decide)),
      optsLookup_skip (optsLookup_headerOpts_none ("redirect") (by decide)),
      optsLookup_skip (optsLookup_condPart_none ("redirect") ("mode") (by decide)),
      optsLookup_skip (optsLookup_condPart_none ("redirect") ("credentials") (by decide)),
      optsLookup_skip (optsLookup_condPart_none ("redirect") ("cache") (by decide)),
      optsLookup_append]
  by_cases h : RequestRedirect.String req.Redirect = ("")
  · rw [if_pos h, if_pos h]
    show optsLookup ("redirect") _ = none
    rw [optsLookup_skip (optsLookup_condPart_none ("redirect") ("referrer") (by decide)),
        optsLookup_skip (optsLookup_condPart_none ("redirect") ("integrity") (by decide))]
    exact optsLookup_bodyOpts_none ("redirect") (by decide)
  · rw [if_neg h, if_neg h]
    simp [optsLookup]

/-- C5: for every Request Descriptor and every policy axis (mode, credentials,
cache, redirect), the assembled option map contains the axis's wire key iff
the enum's string form is non-empty, and then maps it to exactly that string;
in particular cache = NoStore yields the literal no-store under the cache key,
and when every policy enum is zero none of the four wire keys appear. -/
theorem do_policy_option_keys (req : Request) :
    (optsLookup ("mode") (assembledOpts req) =
      (if RequestMode.String req.Mode = ("") then none
       else some (OptValue.str (RequestMode.String req.Mode)))) ∧
    (optsLookup ("credentials") (assembledOpts req) =
      (if RequestCredentials.String req.Credentials = ("") then none
       else some (OptValue.str (RequestCredentials.String req.Credentials)))) ∧
    (optsLookup ("cache") (assembledOpts req) =
      (if RequestCache.String req.Cache = ("") then none
       else some (OptValue.str (RequestCache.String req.Cache)))) ∧
    (optsLookup ("redirect") (assembledOpts req) =
      (if RequestRedirect.String req.Redirect = ("") then none
       else some (OptValue.str (RequestRedirect.String req.Redirect)))) ∧
    (req.Cache = NoStore →
      optsLookup ("cache") (assembledOpts req) = some (OptValue.str ("no-store"))) ∧
    (req.Mode = 0 → req.Credentials = 0 → req.Cache = 0 → req.Redirect = 0 →
      optsLookup ("mode") (assembledOpts req) = none ∧
      optsLookup ("credentials") (assembledOpts req) = none ∧
      optsLookup ("cache") (assembledOpts req) = none ∧
      optsLookup ("redirect") (assembledOpts req) = none) := by
  refine ⟨assembled_mode_lookup req, assembled_credentials_lookup req,
    assembled_cache_lookup req, assembled_redirect_lookup req, ?_, ?_⟩
  · intro h
    rw [assembled_cache_lookup req, h]
    decide
  · intro h1 h2 h3 h4
    refine ⟨?_, ?_, ?_, ?_⟩
    · rw [assembled_mode_lookup req, h1]; decide
    · rw [assembled_credentials_lookup req, h2]; decide
    · rw [assembled_cache_lookup req, h3]; decide
    · rw [assembled_redirect_lookup req, h4]; decide

/-- Witness for C5 at concrete inputs: a request with cache = NoStore gets the
literal no-store under the cache key, and a request with every policy enum
zero gets no mode key. -/
theorem do_policy_option_keys_witness :
    optsLookup ("cache") (assembledOpts reqNoStore) = some (OptValue.str ("no-store")) ∧
    optsLookup ("mode") (assembledOpts reqDefault) = none :=
  ⟨(do_policy_option_keys reqNoStore).2.2.2.2.1 rfl,
   ((do_policy_option_keys reqDefault).2.2.2.2.2 rfl rfl rfl rfl).1⟩

/-- C10: for each of the five defined ResponseType constants, converting the
constant to its wire string and looking that string up in the reverse map used
by NewResponse yields the original constant. -/
theorem respTypMap_reverse_round_trip :
    reverseRespTypMap (ResponseType.String BasicResponse) = BasicResponse ∧
    reverseRespTypMap (ResponseType.String CorsResponse) = CorsResponse ∧
    reverseRespTypMap (ResponseType.String ErrorResponse) = ErrorResponse ∧
    reverseRespTypMap (ResponseType.String OpaqueResponse) = OpaqueResponse ∧
    reverseRespTypMap (ResponseType.String OpaqueRedirectResponse) = OpaqueRedirectResponse := by
  decide

/- The trace of doCore is the body-handling trace followed by doCoreTail. -/
theorem doCore_trace_eq (req : Request) (env : Env) (rt : List Event) (rs : List Nat) :
    (doCore req env rt rs).2 = rt ++ doCoreTail req env rs := by
  unfold doCore doCoreTail
  by_cases h1 : env.panicAt = some PanicSite.requestNew
  · simp [h1]
  · by_cases h2 : env.panicAt = some PanicSite.invoke
    · simp [h1, h2, List.append_assoc]
    · by_cases h3 : env.panicAt = some PanicSite.thenCall
      · simp [h1, h2, h3, List.append_assoc]
      · cases env.promise with
        | reject m => simp [h1, h2, h3, List.append_assoc]
        | resolve v =>
          rcases hnr : NewResponse v with e | r <;>
            simp [h1, h2, h3, hnr, List.append_assoc]

/- No event after the body handling is a body read. -/
theorem bodyRead_not_mem_doCoreTail (req : Request) (env : Env) (rs : List Nat) :
    Event.bodyRead ∉ doCoreTail req env rs := by
  unfold doCoreTail
  by_cases h1 : env.panicAt = some PanicSite.requestNew
  · simp [h1, releaseEvents]
  · by_cases h2 : env.panicAt = some PanicSite.invoke
    · simp [h1, h2, releaseEvents]
    · by_cases h3 : env.panicAt = some PanicSite.thenCall
      · simp [h1, h2, h3, releaseEvents]
      · cases env.promise <;> simp [h1, h2, h3, releaseEvents]

/- Client.Do in terms of doCore, one lemma per body case. -/

theorem client_do_none (req : Request) (env : Env) (h : req.Body = none) :
    Client.Do req env = doCore req env [] [] := by
  simp [Client.Do, h]

theorem client_do_ok (req : Request) (env : Env) (bs : List Nat)
    (h : req.Body = some (Except.ok bs)) :
    Client.Do req env =
      doCore req env [Event.bodyRead, Event.registerHandle taHandle] [taHandle] := by
  simp [Client.Do, h]

theorem client_do_err (req : Request) (env : Env) (e : String)
    (h : req.Body = some (Except.error e)) :
    Client.Do req env = (DoResult.error e, [Event.bodyRead]) := by
  simp [Client.Do, h]

/- With a panic pending at any of the modelled sites, doCore returns the
   panic message as the error. -/
theorem doCore_panic_error (req : Request) (env : Env) (rt : List Event)
    (rs : List Nat) (site : PanicSite) (hp : env.panicAt = some site) :
    (doCore req env rt rs).1 = DoResult.error env.panicMsg := by
  cases site <;> simp [doCore, hp]

/-- C1: the claim says a rejecting primitive makes Client.Do return an error
carrying the rejection message and a nil Response.  What the code does
instead: the completion callback is attached only to the fulfillment path of
the promise (a single-argument then call, line 808), so when the primitive
rejects with message network down the callback never fires and Client.Do
stays blocked on the done channel forever, returning nothing at all.  This
theorem evaluates the embedded Client.Do at that failing input. -/
theorem do_primitive_rejection_blocks :
    Client.Do reqDefault envReject =
      (DoResult.blocked,
        [Event.newRequest 1, Event.registerHandle cbHandle, Event.invokePrimitive]) := by
  decide

/-- C2: the claim says every Resource Handle registered during the call is
released exactly once by the time Do returns, also on the primitive-rejection
path.  What the code does instead on that path: the typed-array handle and
the callback handle are registered, Client.Do blocks forever (see C1), the
deferred free never runs, and neither handle is ever released.  This theorem
evaluates the embedded Client.Do at that failing input. -/
theorem do_rejection_leaks_resource_handles :
    (Client.Do reqWithBody envReject).1 = DoResult.blocked ∧
    countRegister (Client.Do reqWithBody envReject).2 taHandle = 1 ∧
    countRelease (Client.Do reqWithBody envReject).2 taHandle = 0 ∧
    countRegister (Client.Do reqWithBody envReject).2 cbHandle = 1 ∧
    countRelease (Client.Do reqWithBody envReject).2 cbHandle = 0 := by
  decide

/-- C3: for every Client.Do call during which a runtime panic is raised at
one of the JS-interop sites inside the call, the deferred recover at the Do
boundary catches it and Do returns an error carrying the panic's message; the
panic never propagates, and no Response is returned. -/
theorem do_panic_converted_to_error (req : Request) (env : Env) (site : PanicSite)
    (hp : env.panicAt = some site) (hb : bodyReadFails req = false) :
    (Client.Do req env).1 = DoResult.error env.panicMsg := by
  rcases hbody : req.Body with _ | b
  · rw [client_do_none req env hbody]
    exact doCore_panic_error req env _ _ site hp
  · cases b with
    | error e => simp [bodyReadFails, hbody] at hb
    | ok bs =>
      rw [client_do_ok req env bs hbody]
      exact doCore_panic_error req env _ _ site hp

/-- Witness for C3: a panic with message boom raised at Request.New comes
back as the error boom. -/
theorem do_panic_converted_to_error_witness :
    (Client.Do reqDefault envPanicNew).1 = DoResult.error ("boom") :=
  do_panic_converted_to_error reqDefault envPanicNew PanicSite.requestNew rfl rfl

/-- C4: for every Request Descriptor with a non-nil body, Client.Do reads the
body exactly once to completion before invoking the primitive; if the read
fails, Do returns the read error with no Response immediately, its trace is
the body read alone, and in particular the primitive is never invoked. -/
theorem do_body_read_once (req : Request) (env : Env) :
    (∀ bs, req.Body = some (Except.ok bs) →
      readsBodyOnceBeforeInvoke (Client.Do req env).2) ∧
    (∀ e, req.Body = some (Except.error e) →
      Client.Do req env = (DoResult.error e, [Event.bodyRead])) := by
  constructor
  · intro bs hbody
    rw [client_do_ok req env bs hbody, doCore_trace_eq]
    constructor
    · rw [List.count_append,
        List.count_eq_zero.mpr (bodyRead_not_mem_doCoreTail req env [taHandle])]
      decide
    · simp only [List.cons_append, List.nil_append]
      rw [List.takeWhile_cons_of_pos (by decide), List.takeWhile_cons_of_pos (by decide)]
      have h0 : (List.takeWhile (fun e => !(e == Event.invokePrimitive))
          (doCoreTail req env [taHandle])).count Event.bodyRead = 0 :=
        List.count_eq_zero.mpr (fun hm =>
          bodyRead_not_mem_doCoreTail req env [taHandle]
            (List.IsPrefix.subset (List.takeWhile_prefix _) hm))
      rw [List.count_cons, List.count_cons, h0]
      decide
  · intro e hbody
    exact client_do_err req env e hbody

/-- Witness for C4: the two-byte body is read once before the primitive runs,
and the failing body returns its read error with the primitive untouched. -/
theorem do_body_read_once_witness :
    readsBodyOnceBeforeInvoke (Client.Do reqWithBody envResolve).2 ∧
    Client.Do reqBodyErr envResolve = (DoResult.error ("read failed"), [Event.bodyRead]) :=
  ⟨(do_body_read_once reqWithBody envResolve).1 [104, 105] rfl,
   (do_body_read_once reqBodyErr envResolve).2 ("read failed") rfl⟩

/-- C6: for every Client.Do call whose primitive resolves successfully, the
Response Descriptor's fields are taken from the resolved value: ok, status,
statusText, the type through the reverse map, the headers reference, and the
parsed url; on the spec's concrete test double the call returns status 200,
ok true and url host example.test; and a resolved value whose url fails to
parse makes Do return that parse error with no Response. -/
theorem do_response_from_resolved_value :
    (∀ v r, NewResponse v = Except.ok r →
      r.Ok = v.ok ∧ r.Status = v.status ∧ r.StatusText = v.statusText ∧
      r.Typ = reverseRespTypMap v.typ ∧ r.Headers.value = v.headers ∧
      urlParse v.url = Except.ok r.URL) ∧
    ((Client.Do reqDefault envResolve).1 = DoResult.ok respBasic ∧
      respBasic.Status = 200 ∧ respBasic.Ok = true ∧
      respBasic.URL.host = ("example.test")) ∧
    (∀ (req : Request) (env : Env) (v : JSResponseValue) (e : String),
      env.promise = PromiseOutcome.resolve v → env.panicAt = none →
      bodyReadFails req = false → urlParse v.url = Except.error e →
      (Client.Do req env).1 = DoResult.error e) := by
  refine ⟨?_, ⟨by decide, rfl, rfl, rfl⟩, ?_⟩
  · intro v r h
    unfold NewResponse at h
    rcases hu : urlParse v.url with e | u
    · rw [hu] at h
      exact absurd h (by simp)
    · rw [hu] at h
      injection h with h2
      subst h2
      exact ⟨rfl, rfl, rfl, rfl, rfl, rfl⟩
  · intro req env v e hpr hp hb hu
    have hnr : NewResponse v = Except.error e := by
      unfold NewResponse; rw [hu]
    rcases hbody : req.Body with _ | b
    · rw [client_do_none req env hbody]
      simp [doCore, hp, hpr, hnr]
    · cases b with
      | error e2 => simp [bodyReadFails, hbody] at hb
      | ok bs =>
        rw [client_do_ok req env bs hbody]
        simp [doCore, hp, hpr, hnr]

/-- Witness for C6: the field projections hold at the spec's test double, and
the control-character url makes Do return the parse error. -/
theorem do_response_from_resolved_value_witness :
    (respBasic.Ok = vBasic.ok ∧ respBasic.Status = vBasic.status ∧
      respBasic.StatusText = vBasic.statusText ∧
      respBasic.Typ = reverseRespTypMap vBasic.typ ∧
      respBasic.Headers.value = vBasic.headers ∧
      urlParse vBasic.url = Except.ok respBasic.URL) ∧
    (Client.Do reqDefault envBadUrl).1 =
      DoResult.error ("net/url: invalid control character in URL") :=
  ⟨do_response_from_resolved_value.1 vBasic respBasic rfl,
   do_response_from_resolved_value.2.2 reqDefault envBadUrl vBadUrl
     ("net/url: invalid control character in URL") rfl rfl rfl rfl⟩

/-- C7 counterexample: the claim says the Response Descriptor's redirected
flag is populated from the resolved value; but NewResponse applied to a value
whose redirected property is true yields a Response whose Redirected field is
false. -/
theorem response_redirected_ignored_cex :
    vRedirected.redirected = true ∧
    Except.map Response.Redirected (NewResponse vRedirected) = Except.ok false := by
  exact ⟨rfl, rfl⟩

/-- C7 amended: NewResponse never populates the redirected flag from the
resolved value; the Redirected field of every Response it builds is the Go
zero value false, whatever the resolved value's redirected property is. -/
theorem response_redirected_always_false (v : JSResponseValue) :
    Except.map Response.Redirected (NewResponse v) =
      Except.map (fun _ => false) (NewResponse v) := by
  rcases hu : urlParse v.url with e | u <;> simp [NewResponse, hu, Except.map]

/-- C8: the claim (and the method's own doc comment) says Header.Get returns
the combined value string for a present name; but Get reads a plain JS
property of the Headers object instead of calling its get method, and header
entries are not exposed as properties.  On the repository's own example (Set
of Content-Type to text/xml) the entry is present per the primitive's get
rule, yet Header.Get returns the empty string. -/
theorem header_get_property_access_bug :
    JSHeaders.get (Header.Value hdrCT) ("Content-Type") = some ("text/xml") ∧
    Header.Get hdrCT ("Content-Type") = ("") := by
  exact ⟨by decide, rfl⟩

/-- C9: for every Client.Do call that reaches request construction, the
primitive's native request is built from the URL alone (one argument) exactly
when the assembled option map is empty, and with the option map as second
argument otherwise. -/
theorem do_empty_opts_omits_second_arg (req : Request) (env : Env)
    (hp : env.panicAt = none) (hb : bodyReadFails req = false) :
    newRequestArgCount (Client.Do req env).2 =
      some (if assembledOpts req = [] then 1 else 2) := by
  have harg : (if (assembledOpts req).length > 0 then (2 : Nat) else 1) =
      (if assembledOpts req = [] then 1 else 2) := by
    by_cases he : assembledOpts req = []
    · simp [he]
    · simp [he, List.length_pos.mpr he]
  have htail : ∀ rs : List Nat, newRequestArgCount (doCoreTail req env rs) =
      some (if (assembledOpts req).length > 0 then 2 else 1) := by
    intro rs
    unfold doCoreTail
    simp only [hp]
    cases env.promise <;> simp [newRequestArgCount]
  rcases hbody : req.Body with _ | b
  · rw [client_do_none req env hbody, doCore_trace_eq, List.nil_append, htail, harg]
  · cases b with
    | error e => simp [bodyReadFails, hbody] at hb
    | ok bs =>
      rw [client_do_ok req env bs hbody, doCore_trace_eq]
      simp only [List.cons_append, List.nil_append]
      rw [show ∀ l, newRequestArgCount
            (Event.bodyRead :: Event.registerHandle taHandle :: l) =
          newRequestArgCount l from fun l => rfl]
      rw [htail, harg]

/-- Witness for C9: the all-default request forwards no second argument; the
request with a body forwards the option map as second argument. -/
theorem do_empty_opts_omits_second_arg_witness :
    newRequestArgCount (Client.Do reqDefault envResolve).2 = some 1 ∧
    newRequestArgCount (Client.Do reqWithBody envResolve).2 = some 2 :=
  ⟨(do_empty_opts_omits_second_arg reqDefault envResolve rfl rfl).trans (by decide),
   (do_empty_opts_omits_second_arg reqWithBody envResolve rfl rfl).trans (by decide)⟩

end Tafuta
